import Mathlib

/-!
Verification of the connection-handling pipeline of `proxy.py`
(class `HighPerformanceProxy`): the connection handler `handle_client`,
the two protocol paths `handle_http` / `handle_https`, and the
bidirectional relay `relay_data`.

The embedding is a shallow one.  Socket I/O is modelled by an explicit
event trace (`Ev`); the outcome of each fallible operation the handler
performs at most once per run (the initial `recv`, the upstream
`connect`, the first post-connect `send`, the error-response `send`)
is supplied by an environment (`Env`), and the `select`-driven relay
loop is driven by a schedule (`RStep`) that says, per iteration, which
sockets were reported ready / errored and what each `recv` returned.
Byte strings are `List Nat` (values < 256); Python `str` values are
`List Nat` of Unicode code points.  `bytes.decode('utf-8',
errors='ignore')` and `str.encode('utf-8')` are modelled faithfully,
including the skip-on-invalid behaviour of `errors='ignore'`, because
`handle_client` decodes the raw request and `handle_http` re-encodes
it before forwarding.
-/

/-- Raw bytes (each entry < 256) and also Python `str` values as lists
of Unicode code points. -/
abbrev Bytes := List Nat

/-- Code points of a Lean string literal; used to transcribe the ASCII
string constants appearing in `proxy.py`. -/
def pyStr (s : String) : Bytes := s.data.map Char.toNat

/-- Holds (`leadsWith s pat = true`) iff `pat` is an initial segment of `s`;
models Python `s.startswith(pat)`. -/
def leadsWith : Bytes → Bytes → Bool
  | _, [] => true
  | [], _ :: _ => false
  | c :: cs, d :: ds => c == d && leadsWith cs ds

/-- Python `s.split(sep)` for a single-character separator `ch`:
every occurrence separates, empty pieces are kept. -/
def splitOnChar (ch : Nat) : Bytes → List Bytes
  | [] => [[]]
  | c :: rest =>
    if c = ch then [] :: splitOnChar ch rest
    else
      match splitOnChar ch rest with
      | [] => [[c]]
      | p :: ps => (c :: p) :: ps

/-- Python `s.split('\r\n')`: split on the two-character separator
CR LF (13, 10), leftmost-first, non-overlapping, empty pieces kept. -/
def splitCRLF : Bytes → List Bytes
  | [] => [[]]
  | [c] => [[c]]
  | c :: c2 :: rest =>
    if c = 13 ∧ c2 = 10 then [] :: splitCRLF rest
    else
      match splitCRLF (c2 :: rest) with
      | [] => [[c]]
      | p :: ps => (c :: p) :: ps

/-- The piece of `l` after the first occurrence of `ch`, if any;
models Python `l.split(ch, 1)[1]`. -/
def afterChar (ch : Nat) : Bytes → Option Bytes
  | [] => none
  | c :: rest => if c = ch then some rest else afterChar ch rest

/-- The piece of `l` after the last occurrence of `ch` (all of `l` if
`ch` does not occur); models Python `l.rpartition(ch)[2]`. -/
def afterLast (ch : Nat) (l : Bytes) : Bytes :=
  (l.reverse.takeWhile (fun c => c != ch)).reverse

/-- ASCII whitespace recognised by the model of Python `str.strip()`. -/
def isSpaceCh (c : Nat) : Bool :=
  c = 9 || c = 10 || c = 11 || c = 12 || c = 13 || c = 32

/-- Python `str.strip()` restricted to ASCII whitespace. -/
def pyStrip (l : Bytes) : Bytes :=
  ((l.dropWhile isSpaceCh).reverse.dropWhile isSpaceCh).reverse

/-- ASCII lower-casing of one code point; models the effect of Python
`str.lower()` on the ASCII range (sufficient for the `host:` check). -/
def asciiLower (c : Nat) : Nat := if 65 ≤ c ∧ c ≤ 90 then c + 32 else c

/-- ASCII `str.lower()` on a whole string. -/
def lowerStr (l : Bytes) : Bytes := l.map asciiLower

/-- ASCII digit test. -/
def isDigitCh (c : Nat) : Bool := 48 ≤ c && c ≤ 57

/-- Python `int(s)` restricted to non-empty unsigned digit strings
(the only form exercised by the proxy's port parsing); `none` models
the `ValueError` raised on anything else. -/
def parseDigits (l : Bytes) : Option Nat :=
  if !l.isEmpty && l.all isDigitCh then
    some (l.foldl (fun a c => a * 10 + (c - 48)) 0)
  else none

/-- UTF-8 continuation byte test (0x80–0xBF). -/
def isCont (b : Nat) : Bool := decide (0x80 ≤ b ∧ b ≤ 0xBF)

/-- Valid second byte of a three-byte UTF-8 sequence with lead `b`
(CPython's utf-8 decoder: E0 needs A0–BF, ED needs 80–9F, else any
continuation byte); overlong and surrogate encodings are rejected. -/
def cont3ok (b b2 : Nat) : Bool :=
  if b = 0xE0 then decide (0xA0 ≤ b2 ∧ b2 ≤ 0xBF)
  else if b = 0xED then decide (0x80 ≤ b2 ∧ b2 ≤ 0x9F)
  else isCont b2

/-- Valid second byte of a four-byte UTF-8 sequence with lead `b`
(F0 needs 90–BF, F4 needs 80–8F, else any continuation byte). -/
def cont4ok (b b2 : Nat) : Bool :=
  if b = 0xF0 then decide (0x90 ≤ b2 ∧ b2 ≤ 0xBF)
  else if b = 0xF4 then decide (0x80 ≤ b2 ∧ b2 ≤ 0x8F)
  else isCont b2

/-- Code point of a two-byte UTF-8 sequence. -/
def cp2 (b b2 : Nat) : Nat := (b - 0xC0) * 0x40 + (b2 - 0x80)

/-- Code point of a three-byte UTF-8 sequence. -/
def cp3 (b b2 b3 : Nat) : Nat :=
  (b - 0xE0) * 0x1000 + (b2 - 0x80) * 0x40 + (b3 - 0x80)

/-- Code point of a four-byte UTF-8 sequence. -/
def cp4 (b b2 b3 b4 : Nat) : Nat :=
  (b - 0xF0) * 0x40000 + (b2 - 0x80) * 0x1000 + (b3 - 0x80) * 0x40 + (b4 - 0x80)

/-- Worker for the model of `bytes.decode('utf-8', errors='ignore')`.
The first argument is fuel; every recursive call consumes at least one
input byte and one unit of fuel, so fuel equal to the input length
(as supplied by `pyDecodeIgnore`) never runs out. -/
def pyDecodeGo : Nat → List Nat → List Nat
  | _, [] => []
  | 0, _ :: _ => []
  | n + 1, b :: rest =>
    if b < 0x80 then b :: pyDecodeGo n rest
    else if 0xC2 ≤ b ∧ b ≤ 0xDF then
      match rest with
      | [] => []
      | b2 :: r2 =>
        if isCont b2 then cp2 b b2 :: pyDecodeGo n r2
        else pyDecodeGo n rest
    else if 0xE0 ≤ b ∧ b ≤ 0xEF then
      match rest with
      | [] => []
      | b2 :: r2 =>
        if cont3ok b b2 then
          match r2 with
          | [] => []
          | b3 :: r3 =>
            if isCont b3 then cp3 b b2 b3 :: pyDecodeGo n r3
            else pyDecodeGo n r2
        else pyDecodeGo n rest
    else if 0xF0 ≤ b ∧ b ≤ 0xF4 then
      match rest with
      | [] => []
      | b2 :: r2 =>
        if cont4ok b b2 then
          match r2 with
          | [] => []
          | b3 :: r3 =>
            if isCont b3 then
              match r3 with
              | [] => []
              | b4 :: r4 =>
                if isCont b4 then cp4 b b2 b3 b4 :: pyDecodeGo n r4
                else pyDecodeGo n r3
            else pyDecodeGo n r2
        else pyDecodeGo n rest
    else pyDecodeGo n rest

/-- Python `bytes.decode('utf-8', errors='ignore')`: decode UTF-8,
silently skipping invalid byte runs (CPython skips the maximal valid
subpart of a bad sequence, or a single bad lead byte; a truncated
valid sequence at end of input is consumed silently).  Returns the
list of decoded code points. -/
def pyDecodeIgnore (bs : List Nat) : List Nat := pyDecodeGo bs.length bs

/-- UTF-8 encoding of one code point (Python `str.encode('utf-8')`
acts per character; the proxy only ever encodes what it decoded, so
only scalar values below 0x110000 arise). -/
def utf8EncodeChar (c : Nat) : List Nat :=
  if c < 0x80 then [c]
  else if c < 0x800 then [0xC0 + c / 0x40, 0x80 + c % 0x40]
  else if c < 0x10000 then
    [0xE0 + c / 0x1000, 0x80 + c / 0x40 % 0x40, 0x80 + c % 0x40]
  else
    [0xF0 + c / 0x40000, 0x80 + c / 0x1000 % 0x40, 0x80 + c / 0x40 % 0x40,
      0x80 + c % 0x40]

/-- Python `str.encode('utf-8')` on a list of code points. -/
def utf8Encode : List Nat → List Nat
  | [] => []
  | c :: cs => utf8EncodeChar c ++ utf8Encode cs

/-- Worker for `validUtf8`, with the same fuel discipline as
`pyDecodeGo`. -/
def validGo : Nat → List Nat → Bool
  | _, [] => true
  | 0, _ :: _ => false
  | n + 1, b :: rest =>
    if b < 0x80 then validGo n rest
    else if 0xC2 ≤ b ∧ b ≤ 0xDF then
      match rest with
      | b2 :: r2 => isCont b2 && validGo n r2
      | [] => false
    else if 0xE0 ≤ b ∧ b ≤ 0xEF then
      match rest with
      | b2 :: b3 :: r3 => cont3ok b b2 && isCont b3 && validGo n r3
      | _ => false
    else if 0xF0 ≤ b ∧ b ≤ 0xF4 then
      match rest with
      | b2 :: b3 :: b4 :: r4 =>
        cont4ok b b2 && isCont b3 && isCont b4 && validGo n r4
      | _ => false
    else false

/-- Holds (`validUtf8 bs = true`) iff `bs` is a well-formed UTF-8 byte string
(no overlong forms, no surrogates, max U+10FFFF) — exactly the inputs
on which `pyDecodeIgnore` loses nothing. -/
def validUtf8 (bs : List Nat) : Bool := validGo bs.length bs


/-- Observable effects of one connection handler run, in program order.
Counter events record the mutations of the shared `self.stats` dict;
send events carry the bytes passed to `socket.send` together with
whether the send succeeded (a failed send delivers nothing and raises). -/
inductive Ev where
  | connectAttempt : Bytes → Nat → Bool → Ev
  | clientSend : Bytes → Bool → Ev
  | upstreamSend : Bytes → Bool → Ev
  | upstreamClose : Ev
  | clientClose : Ev
  | incActive : Ev
  | decActive : Ev
  | incTotal : Ev
  | incErrors : Ev
deriving DecidableEq

/-- Result of one `sock.recv` inside the relay loop: `rerr` models a
raised exception; `rdata bs ok` models data `bs` being returned (empty
`bs` is a zero-length read) with `ok` the outcome of the matching
forwarding `send`. -/
inductive ROut where
  | rerr : ROut
  | rdata : Bytes → Bool → ROut
deriving DecidableEq

/-- One socket reported read-ready by `select.select`: `fromClient`
says whether it is the client socket (data flows client → upstream). -/
structure RItem where
  fromClient : Bool
  out : ROut
deriving DecidableEq

/-- One iteration of the relay loop as reported by `select.select`:
either the error list was non-empty, or these sockets were read-ready
(processed in list order by the `for` loop). -/
inductive RStep where
  | selErr : RStep
  | selReady : List RItem → RStep
deriving DecidableEq

/-- Outcomes of the per-connection fallible operations, one field per
program point (each is executed at most once per connection):
`recvOk` — the initial `client_socket.recv`; `connectOk` — the
upstream `connect`; `estabSendOk` — the first send after a successful
connect (the 200 response in `handle_https`, the forwarded request in
`handle_http`); `errSendOk` — the 500-response send in the `except`
clauses; `sched` — the relay-loop schedule. -/
structure Env where
  recvOk : Bool
  connectOk : Bool
  estabSendOk : Bool
  errSendOk : Bool
  sched : List RStep

/-- The bytes of `HTTP/1.1 200 Connection Established\r\n\r\n`, UTF-8 encoded as by
`response.encode('utf-8')` in `handle_https`. -/
def resp200 : Bytes := utf8Encode (pyStr "HTTP/1.1 200 Connection Established\r\n\r\n")

/-- The bytes of `HTTP/1.1 500 Internal Server Error\r\n\r\n`, UTF-8 encoded as by
`error_response.encode('utf-8')` in the `except` clauses. -/
def resp500 : Bytes := utf8Encode (pyStr "HTTP/1.1 500 Internal Server Error\r\n\r\n")

/-- Forwarding send of relayed data: data read from the client socket
is sent to the upstream socket and vice versa (`relay_data`,
lines 161–164). -/
def relayFwd (fromClient : Bool) (bs : Bytes) (ok : Bool) : Ev :=
  if fromClient then Ev.upstreamSend bs ok else Ev.clientSend bs ok

/-- The `for sock in ready_sockets` body of `relay_data`: process each
ready socket in order; a raised `recv`/`send` or a zero-length read
returns from the whole function (second component `true`). -/
def relayItems : List RItem → List Ev × Bool
  | [] => ([], false)
  | it :: rest =>
    match it.out with
    | ROut.rerr => ([], true)
    | ROut.rdata bs ok =>
      if bs = [] then ([], true)
      else if ok then
        (relayFwd it.fromClient bs true :: (relayItems rest).1, (relayItems rest).2)
      else ([relayFwd it.fromClient bs false], true)

/-- The `while True` loop of `relay_data` over a finite schedule: a
non-empty `select` error list breaks out; otherwise the ready sockets
are processed.  Second component `true` iff the loop was exited (an
exhausted schedule leaves the loop still running). -/
def relaySteps : List RStep → List Ev × Bool
  | [] => ([], false)
  | RStep.selErr :: _ => ([], true)
  | RStep.selReady items :: rest =>
    if (relayItems items).2 then ((relayItems items).1, true)
    else ((relayItems items).1 ++ (relaySteps rest).1, (relaySteps rest).2)

/-- Models `HighPerformanceProxy.relay_data` (lines 149–173): pump bytes both
ways until a zero-length read, error or exception; the `finally`
block then closes the upstream (`server_socket`) — never the client
socket. -/
def relay_data (sched : List RStep) : List Ev × Bool :=
  if (relaySteps sched).2 then ((relaySteps sched).1 ++ [Ev.upstreamClose], true)
  else relaySteps sched

/-- Models `url.split(':')` into exactly `host, port` with `int(port)`
(lines 132–133 of `handle_https`); `none` models the `ValueError`
raised on any other shape. -/
def parseConnectTarget (url : Bytes) : Option (Bytes × Nat) :=
  match splitOnChar 58 url with
  | [h, p] =>
    match parseDigits p with
    | some n => some (h, n)
    | none => none
  | _ => none

/-- Modelled from the Python stdlib call `urlparse(url)` together with
`parsed_url.hostname` and `parsed_url.port or 80` (lines 106–108),
restricted to `http://` URLs without IPv6 brackets: the netloc is the
text after `http://` up to the first `/`, `?` or `#`; userinfo up to
the last `@` is dropped; the hostname is the part before the first
`:`, ASCII-lowercased; the port is the digits after that `:` (empty
or absent port, and port 0, give 80; a non-numeric or out-of-range
port raises, modelled as `none`; an empty hostname makes the later
`connect` raise, also modelled as `none`). -/
def parseAbsUrl (url : Bytes) : Option (Bytes × Nat) :=
  match afterChar 58 (afterLast 64 ((url.drop 7).takeWhile
      (fun c => !(c == 47 || c == 63 || c == 35)))) with
  | none =>
    if ((url.drop 7).takeWhile (fun c => !(c == 47 || c == 63 || c == 35))).isEmpty
    then none
    else some (lowerStr (afterLast 64 ((url.drop 7).takeWhile
      (fun c => !(c == 47 || c == 63 || c == 35)))), 80)
  | some ds =>
    if (afterLast 64 ((url.drop 7).takeWhile
        (fun c => !(c == 47 || c == 63 || c == 35)))).takeWhile (fun c => c != 58)
        |>.isEmpty then none
    else
      if ds.isEmpty then
        some (lowerStr ((afterLast 64 ((url.drop 7).takeWhile
          (fun c => !(c == 47 || c == 63 || c == 35)))).takeWhile (fun c => c != 58)), 80)
      else
        match parseDigits ds with
        | some n =>
          if n ≤ 65535 then
            some (lowerStr ((afterLast 64 ((url.drop 7).takeWhile
              (fun c => !(c == 47 || c == 63 || c == 35)))).takeWhile (fun c => c != 58)),
              if n = 0 then 80 else n)
          else none
        | none => none

/-- The header lines of the request whose lower-cased text starts with
`host:` (line 111 of `handle_http`). -/
def hostHeaderLines (request : Bytes) : List Bytes :=
  (splitCRLF request).filter (fun l => leadsWith (lowerStr l) (pyStr "host:"))

/-- Models `host_line[0].split(':', 1)[1].strip()` with port 80 (lines
112–114); `none` models the raised `Exception("Không tìm thấy host")`
when no `host:` line exists. -/
def hostFromHeaders (request : Bytes) : Option Bytes :=
  match hostHeaderLines request with
  | [] => none
  | l :: _ =>
    match afterChar 58 l with
    | some v => some (pyStrip v)
    | none => none

/-- Host/port resolution of `handle_http` (lines 105–116): absolute
`http://` URIs go through `urlparse`, everything else through the
`Host:` header scan. -/
def httpTarget (request url : Bytes) : Option (Bytes × Nat) :=
  if leadsWith url (pyStr "http://") then parseAbsUrl url
  else
    match hostFromHeaders request with
    | none => none
    | some h => some (h, 80)

/-- Models `HighPerformanceProxy.handle_https` (lines 130–147).  First
component: the events it performs; second component: whether it
re-raises (it does exactly when the 500-response send in its `except`
clause itself raises). -/
def handle_https (url : Bytes) (env : Env) : List Ev × Bool :=
  match parseConnectTarget url with
  | none => ([Ev.clientSend resp500 env.errSendOk], !env.errSendOk)
  | some (h, p) =>
    if env.connectOk then
      if env.estabSendOk then
        (Ev.connectAttempt h p true :: Ev.clientSend resp200 true ::
          (relay_data env.sched).1, false)
      else
        ([Ev.connectAttempt h p true, Ev.clientSend resp200 false,
          Ev.clientSend resp500 env.errSendOk], !env.errSendOk)
    else
      ([Ev.connectAttempt h p false, Ev.clientSend resp500 env.errSendOk],
        !env.errSendOk)

/-- Models `HighPerformanceProxy.handle_http` (lines 103–128).  `request` is
the decoded request string (code points); the forwarded bytes are its
UTF-8 re-encoding (`request.encode('utf-8')`, line 121).  Second
component as in `handle_https`. -/
def handle_http (request url : Bytes) (env : Env) : List Ev × Bool :=
  match httpTarget request url with
  | none => ([Ev.clientSend resp500 env.errSendOk], !env.errSendOk)
  | some (h, p) =>
    if env.connectOk then
      if env.estabSendOk then
        (Ev.connectAttempt h p true :: Ev.upstreamSend (utf8Encode request) true ::
          (relay_data env.sched).1, false)
      else
        ([Ev.connectAttempt h p true, Ev.upstreamSend (utf8Encode request) false,
          Ev.clientSend resp500 env.errSendOk], !env.errSendOk)
    else
      ([Ev.connectAttempt h p false, Ev.clientSend resp500 env.errSendOk],
        !env.errSendOk)

/-- Models `request.split('\r\n')[0]` (line 85). -/
def firstLineOf (request : Bytes) : Bytes := (splitCRLF request).headD []

/-- Models `first_line.split(' ')[1]` (line 86); `none` models the
`IndexError` raised when the first line has no second token. -/
def targetTokOf (request : Bytes) : Option Bytes :=
  (splitOnChar 32 (firstLineOf request))[1]?

/-- The routing test `first_line.startswith('CONNECT')` (line 88). -/
def routesToTunnel (request : Bytes) : Bool :=
  leadsWith (firstLineOf request) (pyStr "CONNECT")

/-- Spec-side notion (§4.2 step 4 speaks of the method token): the
first space-separated token of a request line. -/
def methodTok (line : Bytes) : Bytes := (splitOnChar 32 line).headD []

/-- The error-counter increment of `handle_client`'s `except` clause,
applied to a protocol-path result: the `except` fires exactly when
the path re-raised. -/
def withErrFlag (pr : List Ev × Bool) : List Ev :=
  pr.1 ++ (if pr.2 then [Ev.incErrors] else [])

/-- Protocol dispatch of `handle_client` (lines 88–91) followed by its
`except` clause. -/
def pathEvs (request url : Bytes) (env : Env) : List Ev :=
  if routesToTunnel request then withErrFlag (handle_https url env)
  else withErrFlag (handle_http request url env)

/-- Body of `handle_client`'s `try` after a successful `recv` (lines
80–95), on the decoded request. -/
def handleReq (request : Bytes) (env : Env) : List Ev :=
  if request.isEmpty then []
  else
    Ev.incTotal ::
      (match targetTokOf request with
      | none => [Ev.incErrors]
      | some url => pathEvs request url env)

/-- Models `HighPerformanceProxy.handle_client` (lines 74–101): increment the
active counter, read and decode the request (a raised `recv` is
caught by the `except` clause, which counts an error), dispatch, and
in the `finally` block close the client socket and decrement the
active counter. -/
def handle_client (raw : Bytes) (env : Env) : List Ev :=
  Ev.incActive ::
    (if env.recvOk then handleReq (pyDecodeIgnore raw) env else [Ev.incErrors])
    ++ [Ev.clientClose, Ev.decActive]

/-- Concatenation of a list of byte strings. -/
def joinB : List Bytes → Bytes
  | [] => []
  | b :: bs => b ++ joinB bs

/-- The payload of a successful send to the client socket, if `e` is one. -/
def evClientChunk : Ev → Option Bytes
  | Ev.clientSend bs true => some bs
  | _ => none

/-- The payload of a successful send to the upstream socket, if `e` is one. -/
def evUpstreamChunk : Ev → Option Bytes
  | Ev.upstreamSend bs true => some bs
  | _ => none

/-- Bytes successfully delivered to the client socket, in order. -/
def clientBytes (tr : List Ev) : Bytes := joinB (tr.filterMap evClientChunk)

/-- Bytes successfully delivered to the upstream socket, in order. -/
def upstreamBytes (tr : List Ev) : Bytes := joinB (tr.filterMap evUpstreamChunk)

/-- Number of events in a trace satisfying `q`. -/
def countEv (q : Ev → Bool) : List Ev → Nat
  | [] => 0
  | e :: tr => (if q e then 1 else 0) + countEv q tr

/-- Recognisers for the counter and close events. -/
def isIncActive : Ev → Bool
  | Ev.incActive => true
  | _ => false

def isDecActive : Ev → Bool
  | Ev.decActive => true
  | _ => false

def isClientClose : Ev → Bool
  | Ev.clientClose => true
  | _ => false

def isUpstreamClose : Ev → Bool
  | Ev.upstreamClose => true
  | _ => false

def isIncTotal : Ev → Bool
  | Ev.incTotal => true
  | _ => false

def isIncErrors : Ev → Bool
  | Ev.incErrors => true
  | _ => false

/-- An environment where every operation succeeds and the relay
schedule is empty. -/
def env0 : Env := ⟨true, true, true, true, []⟩

/-- Like `env0` but the upstream `connect` fails. -/
def envNoConnect : Env := ⟨true, false, true, true, []⟩

theorem joinB_append (l1 l2 : List Bytes) :
    joinB (l1 ++ l2) = joinB l1 ++ joinB l2 := by
  induction l1 with
  | nil => rfl
  | cons b bs ih => simp [joinB, ih]

theorem clientBytes_append (l1 l2 : List Ev) :
    clientBytes (l1 ++ l2) = clientBytes l1 ++ clientBytes l2 := by
  simp [clientBytes, List.filterMap_append, joinB_append]

theorem upstreamBytes_append (l1 l2 : List Ev) :
    upstreamBytes (l1 ++ l2) = upstreamBytes l1 ++ upstreamBytes l2 := by
  simp [upstreamBytes, List.filterMap_append, joinB_append]

theorem countEv_append (q : Ev → Bool) (l1 l2 : List Ev) :
    countEv q (l1 ++ l2) = countEv q l1 + countEv q l2 := by
  induction l1 with
  | nil => simp [countEv]
  | cons e tr ih => simp [countEv, ih, Nat.add_assoc]

theorem countEv_take_le (q : Ev → Bool) :
    ∀ (l : List Ev) (n : Nat), countEv q (l.take n) ≤ countEv q l := by
  intro l
  induction l with
  | nil => intro n; simp [countEv]
  | cons e tr ih =>
    intro n
    cases n with
    | zero => simp [countEv]
    | succ m =>
      simp only [List.take_succ_cons, countEv]
      exact Nat.add_le_add_left (ih m) _

/-- Events the relay pump itself can emit: forwarding sends only. -/
def isPumpEv : Ev → Bool
  | Ev.clientSend _ _ => true
  | Ev.upstreamSend _ _ => true
  | _ => false

theorem relayFwd_pump (fc : Bool) (bs : Bytes) (ok : Bool) :
    isPumpEv (relayFwd fc bs ok) = true := by
  cases fc <;> simp [relayFwd, isPumpEv]

theorem relayItems_pump (l : List RItem) :
    ((relayItems l).1).all isPumpEv = true := by
  induction l with
  | nil => rfl
  | cons it rest ih =>
    rcases it with ⟨fc, out⟩
    rcases out with _ | ⟨bs, ok⟩
    · simp [relayItems]
    · by_cases hbs : bs = []
      · simp [relayItems, hbs]
      · cases ok
        · simp [relayItems, hbs, relayFwd_pump]
        · simp [relayItems, hbs, relayFwd_pump, ih]

theorem relaySteps_pump (sched : List RStep) :
    ((relaySteps sched).1).all isPumpEv = true := by
  induction sched with
  | nil => rfl
  | cons st rest ih =>
    rcases st with _ | items
    · simp [relaySteps]
    · by_cases ht : (relayItems items).2
      · simp [relaySteps, ht, relayItems_pump]
      · simp [relaySteps, ht, relayItems_pump, ih]

theorem countEv_eq_zero_of_all (q p : Ev → Bool) (h : ∀ e, p e = true → q e = false) :
    ∀ l : List Ev, l.all p = true → countEv q l = 0 := by
  intro l
  induction l with
  | nil => intro _; rfl
  | cons e tr ih =>
    intro hall
    simp only [List.all_cons, Bool.and_eq_true] at hall
    simp [countEv, h e hall.1, ih hall.2]

theorem relay_data_closes_upstream (sched : List RStep)
    (h : (relay_data sched).2 = true) :
    ∃ tr, (relay_data sched).1 = tr ++ [Ev.upstreamClose] := by
  by_cases ht : (relaySteps sched).2
  · exact ⟨(relaySteps sched).1, by simp [relay_data, ht]⟩
  · simp [relay_data, ht] at h

theorem relay_data_no_clientClose (sched : List RStep) :
    countEv isClientClose (relay_data sched).1 = 0 := by
  have hq : ∀ e, isPumpEv e = true → isClientClose e = false := by
    intro e; cases e <;> simp [isPumpEv, isClientClose]
  have hz := countEv_eq_zero_of_all isClientClose isPumpEv hq _ (relaySteps_pump sched)
  by_cases ht : (relaySteps sched).2
  · simp [relay_data, ht, countEv_append, hz, countEv, isClientClose]
  · simp [relay_data, ht, hz]

theorem relay_data_close_iff_done (sched : List RStep) :
    countEv isUpstreamClose (relay_data sched).1 =
      (if (relay_data sched).2 then 1 else 0) := by
  have hq : ∀ e, isPumpEv e = true → isUpstreamClose e = false := by
    intro e; cases e <;> simp [isPumpEv, isUpstreamClose]
  have hz := countEv_eq_zero_of_all isUpstreamClose isPumpEv hq _ (relaySteps_pump sched)
  by_cases ht : (relaySteps sched).2
  · simp [relay_data, ht, countEv_append, hz, countEv, isUpstreamClose]
  · simp [relay_data, ht, hz]

theorem relayItems_zero_read (xs : List RItem) (tr : List Ev)
    (hx : relayItems xs = (tr, false)) (b sok : Bool) (ys : List RItem) :
    relayItems (xs ++ ⟨b, ROut.rdata [] sok⟩ :: ys) = (tr, true) := by
  induction xs generalizing tr with
  | nil =>
    simp only [relayItems] at hx
    rw [Prod.mk.injEq] at hx
    obtain ⟨h1, _⟩ := hx
    simp [relayItems, ← h1]
  | cons it rest ih =>
    rcases it with ⟨fc, out⟩
    rcases out with _ | ⟨bs, ok⟩
    · simp [relayItems] at hx
    · by_cases hbs : bs = []
      · simp [relayItems, hbs] at hx
      · cases ok
        · simp [relayItems, hbs] at hx
        · simp [relayItems, hbs] at hx
          obtain ⟨h1, h2⟩ := hx
          have hr : relayItems rest = ((relayItems rest).1, false) := by
            rw [← h2]
          have ihr := ih (relayItems rest).1 hr
          simp [List.cons_append, relayItems, hbs, ihr]
          exact h1

theorem relay_data_zero_read (xs : List RItem) (tr : List Ev)
    (hx : relayItems xs = (tr, false)) (b sok : Bool) (ys : List RItem)
    (rest : List RStep) :
    relay_data (RStep.selReady (xs ++ ⟨b, ROut.rdata [] sok⟩ :: ys) :: rest) =
      (tr ++ [Ev.upstreamClose], true) := by
  have hi := relayItems_zero_read xs tr hx b sok ys
  simp [relay_data, relaySteps, hi]

/-- Events a protocol path may emit: everything except the
active-counter mutations and the client-socket close, which belong
exclusively to `handle_client` itself. -/
def isMidEv : Ev → Bool
  | Ev.incActive => false
  | Ev.decActive => false
  | Ev.clientClose => false
  | _ => true

theorem relay_data_mid (sched : List RStep) :
    ((relay_data sched).1).all isMidEv = true := by
  have hp : ∀ e, isPumpEv e = true → isMidEv e = true := by
    intro e; cases e <;> simp [isPumpEv, isMidEv]
  have hs : ((relaySteps sched).1).all isMidEv = true := by
    have := relaySteps_pump sched
    rw [List.all_eq_true] at this ⊢
    exact fun e he => hp e (this e he)
  by_cases ht : (relaySteps sched).2
  · simp [relay_data, ht, List.all_append, hs, isMidEv]
  · simp [relay_data, ht, hs]

theorem handle_https_mid (url : Bytes) (env : Env) :
    ((handle_https url env).1).all isMidEv = true := by
  rcases hpt : parseConnectTarget url with _ | ⟨h, p⟩
  · cases henv : env.errSendOk <;> simp [handle_https, hpt, henv, isMidEv]
  · by_cases hc : env.connectOk
    · by_cases he : env.estabSendOk
      · simp [handle_https, hpt, hc, he, isMidEv, relay_data_mid]
      · cases henv : env.errSendOk <;> simp [handle_https, hpt, hc, he, henv, isMidEv]
    · cases henv : env.errSendOk <;> simp [handle_https, hpt, hc, henv, isMidEv]

theorem handle_http_mid (request url : Bytes) (env : Env) :
    ((handle_http request url env).1).all isMidEv = true := by
  rcases hpt : httpTarget request url with _ | ⟨h, p⟩
  · cases henv : env.errSendOk <;> simp [handle_http, hpt, henv, isMidEv]
  · by_cases hc : env.connectOk
    · by_cases he : env.estabSendOk
      · simp [handle_http, hpt, hc, he, isMidEv, relay_data_mid]
      · cases henv : env.errSendOk <;> simp [handle_http, hpt, hc, he, henv, isMidEv]
    · cases henv : env.errSendOk <;> simp [handle_http, hpt, hc, henv, isMidEv]

theorem withErrFlag_mid (pr : List Ev × Bool) (h : (pr.1).all isMidEv = true) :
    (withErrFlag pr).all isMidEv = true := by
  cases hp : pr.2 <;> simp [withErrFlag, hp, List.all_append, h, isMidEv]

theorem pathEvs_mid (request url : Bytes) (env : Env) :
    (pathEvs request url env).all isMidEv = true := by
  by_cases hr : routesToTunnel request
  · simp [pathEvs, hr, withErrFlag_mid _ (handle_https_mid url env)]
  · simp [pathEvs, hr, withErrFlag_mid _ (handle_http_mid request url env)]

theorem handleReq_mid (request : Bytes) (env : Env) :
    (handleReq request env).all isMidEv = true := by
  by_cases he : request.isEmpty
  · simp [handleReq, he]
  · rcases ht : targetTokOf request with _ | url
    · simp [handleReq, he, ht, isMidEv]
    · simp [handleReq, he, ht, isMidEv, pathEvs_mid]

theorem isCont_bounds {b : Nat} (h : isCont b = true) : 0x80 ≤ b ∧ b ≤ 0xBF := by
  simpa [isCont] using h

theorem cont3ok_cases {b b2 : Nat} (h : cont3ok b b2 = true) :
    (b = 0xE0 ∧ 0xA0 ≤ b2 ∧ b2 ≤ 0xBF) ∨ (b = 0xED ∧ 0x80 ≤ b2 ∧ b2 ≤ 0x9F) ∨
      (b ≠ 0xE0 ∧ b ≠ 0xED ∧ 0x80 ≤ b2 ∧ b2 ≤ 0xBF) := by
  unfold cont3ok at h
  by_cases hE : b = 0xE0
  · simp [hE] at h
    exact Or.inl ⟨hE, h⟩
  · by_cases hD : b = 0xED
    · simp [hE, hD] at h
      exact Or.inr (Or.inl ⟨hD, h⟩)
    · simp [hE, hD, isCont] at h
      exact Or.inr (Or.inr ⟨hE, hD, h⟩)

theorem cont4ok_cases {b b2 : Nat} (h : cont4ok b b2 = true) :
    (b = 0xF0 ∧ 0x90 ≤ b2 ∧ b2 ≤ 0xBF) ∨ (b = 0xF4 ∧ 0x80 ≤ b2 ∧ b2 ≤ 0x8F) ∨
      (b ≠ 0xF0 ∧ b ≠ 0xF4 ∧ 0x80 ≤ b2 ∧ b2 ≤ 0xBF) := by
  unfold cont4ok at h
  by_cases hE : b = 0xF0
  · simp [hE] at h
    exact Or.inl ⟨hE, h⟩
  · by_cases hD : b = 0xF4
    · simp [hE, hD] at h
      exact Or.inr (Or.inl ⟨hD, h⟩)
    · simp [hE, hD, isCont] at h
      exact Or.inr (Or.inr ⟨hE, hD, h⟩)

theorem utf8EncodeChar_ascii {b : Nat} (h : b < 0x80) : utf8EncodeChar b = [b] := by
  simp [utf8EncodeChar, h]

theorem utf8EncodeChar_cp2 {b b2 : Nat} (h1 : 0xC2 ≤ b) (h2 : b ≤ 0xDF)
    (h3 : isCont b2 = true) : utf8EncodeChar (cp2 b b2) = [b, b2] := by
  obtain ⟨h3l, h3h⟩ := isCont_bounds h3
  unfold utf8EncodeChar cp2
  rw [if_neg (by omega), if_pos (by omega)]
  simp only [List.cons.injEq, and_true]
  omega

theorem utf8EncodeChar_cp3 {b b2 b3 : Nat} (hb : 0xE0 ≤ b) (hb2 : b ≤ 0xEF)
    (h2 : cont3ok b b2 = true) (h3 : isCont b3 = true) :
    utf8EncodeChar (cp3 b b2 b3) = [b, b2, b3] := by
  obtain ⟨h3l, h3h⟩ := isCont_bounds h3
  rcases cont3ok_cases h2 with ⟨hE, hbl, hbh⟩ | ⟨hE, hbl, hbh⟩ | ⟨hE1, hE2, hbl, hbh⟩ <;>
    · unfold utf8EncodeChar cp3
      rw [if_neg (by omega), if_neg (by omega), if_pos (by omega)]
      simp only [List.cons.injEq, and_true]
      omega

theorem utf8EncodeChar_cp4 {b b2 b3 b4 : Nat} (hb : 0xF0 ≤ b) (hb2 : b ≤ 0xF4)
    (h2 : cont4ok b b2 = true) (h3 : isCont b3 = true) (h4 : isCont b4 = true) :
    utf8EncodeChar (cp4 b b2 b3 b4) = [b, b2, b3, b4] := by
  obtain ⟨h3l, h3h⟩ := isCont_bounds h3
  obtain ⟨h4l, h4h⟩ := isCont_bounds h4
  rcases cont4ok_cases h2 with ⟨hE, hbl, hbh⟩ | ⟨hE, hbl, hbh⟩ | ⟨hE1, hE2, hbl, hbh⟩ <;>
    · unfold utf8EncodeChar cp4
      rw [if_neg (by omega), if_neg (by omega), if_neg (by omega)]
      simp only [List.cons.injEq, and_true]
      omega

theorem utf8_roundtrip_go :
    ∀ (n : Nat) (bs : List Nat), bs.length ≤ n → validGo n bs = true →
      utf8Encode (pyDecodeGo n bs) = bs := by
  intro n
  induction n with
  | zero =>
    intro bs hl _
    have hbs : bs = [] := List.eq_nil_of_length_eq_zero (Nat.le_zero.mp hl)
    subst hbs; rfl
  | succ n ih =>
    intro bs hl hv
    rcases bs with _ | ⟨b, rest⟩
    · rfl
    · by_cases h1 : b < 0x80
      · simp only [validGo, if_pos h1] at hv
        have hr := ih rest (by simp only [List.length_cons] at hl; omega) hv
        simp [pyDecodeGo, h1, utf8Encode, utf8EncodeChar_ascii h1, hr]
      · by_cases h2 : 0xC2 ≤ b ∧ b ≤ 0xDF
        · rcases rest with _ | ⟨b2, r2⟩
          · simp [validGo, h1, h2] at hv
          · simp [validGo, h1, h2] at hv
            have hr := ih r2 (by simp only [List.length_cons] at hl; omega) hv.2
            simp [pyDecodeGo, h1, h2, hv.1, utf8Encode,
              utf8EncodeChar_cp2 h2.1 h2.2 hv.1, hr]
        · by_cases h3 : 0xE0 ≤ b ∧ b ≤ 0xEF
          · rcases rest with _ | ⟨b2, _ | ⟨b3, r3⟩⟩
            · simp [validGo, h1, h2, h3] at hv
            · simp [validGo, h1, h2, h3] at hv
            · simp [validGo, h1, h2, h3] at hv
              have hr := ih r3 (by simp only [List.length_cons] at hl; omega) hv.2
              simp [pyDecodeGo, h1, h2, h3, hv.1.1, hv.1.2, utf8Encode,
                utf8EncodeChar_cp3 h3.1 h3.2 hv.1.1 hv.1.2, hr]
          · by_cases h4 : 0xF0 ≤ b ∧ b ≤ 0xF4
            · rcases rest with _ | ⟨b2, _ | ⟨b3, _ | ⟨b4, r4⟩⟩⟩
              · simp [validGo, h1, h2, h3, h4] at hv
              · simp [validGo, h1, h2, h3, h4] at hv
              · simp [validGo, h1, h2, h3, h4] at hv
              · simp [validGo, h1, h2, h3, h4] at hv
                have hr := ih r4 (by simp only [List.length_cons] at hl; omega)
                  hv.2
                simp [pyDecodeGo, h1, h2, h3, h4, hv.1.1.1, hv.1.1.2, hv.1.2,
                  utf8Encode,
                  utf8EncodeChar_cp4 h4.1 h4.2 hv.1.1.1 hv.1.1.2 hv.1.2, hr]
            · simp [validGo, h1, h2, h3, h4] at hv

/-- On well-formed UTF-8 input, decoding with `errors='ignore'` and
re-encoding reproduces the input bytes exactly. -/
theorem utf8_roundtrip (bs : List Nat) (h : validUtf8 bs = true) :
    utf8Encode (pyDecodeIgnore bs) = bs :=
  utf8_roundtrip_go bs.length bs Nat.le.refl h

/-- A relay-iteration item that delivers data: a successful read of at
least one byte whose forwarding send also succeeds. -/
def cleanItems (l : List RItem) : Bool :=
  l.all (fun it =>
    match it.out with
    | ROut.rdata bs ok => !bs.isEmpty && ok
    | ROut.rerr => false)

/-- A relay schedule on which the tunnel never ends: no `select`
errors, no zero-length reads, no failed reads or sends. -/
def cleanSched (s : List RStep) : Bool :=
  s.all (fun st =>
    match st with
    | RStep.selReady items => cleanItems items
    | RStep.selErr => false)

/-- Spec-side (§4.4, §8): the data chunks read from the client socket
(`fc = true`) or from the upstream socket (`fc = false`) in one
iteration, in processing order. -/
def itemsChunks (fc : Bool) : List RItem → List Bytes
  | [] => []
  | it :: rest =>
    match it.out with
    | ROut.rdata bs _ =>
      if it.fromClient == fc then bs :: itemsChunks fc rest
      else itemsChunks fc rest
    | ROut.rerr => itemsChunks fc rest

/-- Spec-side: all data chunks a peer sent across a whole schedule. -/
def schedChunks (fc : Bool) : List RStep → List Bytes
  | [] => []
  | RStep.selErr :: rest => schedChunks fc rest
  | RStep.selReady items :: rest => itemsChunks fc items ++ schedChunks fc rest

theorem relayItems_clean (l : List RItem) (h : cleanItems l = true) :
    (relayItems l).2 = false ∧
      clientBytes (relayItems l).1 = joinB (itemsChunks false l) ∧
      upstreamBytes (relayItems l).1 = joinB (itemsChunks true l) := by
  induction l with
  | nil => exact ⟨rfl, rfl, rfl⟩
  | cons it rest ih =>
    rcases it with ⟨fc, out⟩
    rcases out with _ | ⟨bs, ok⟩
    · simp [cleanItems] at h
    · simp only [cleanItems, List.all_cons, Bool.and_eq_true] at h
      obtain ⟨⟨hbs, hok⟩, hrest⟩ := h
      subst hok
      have hne : ¬bs = [] := by
        cases bs with
        | nil => simp at hbs
        | cons a l => simp
      obtain ⟨ih1, ih2, ih3⟩ := ih hrest
      cases fc <;>
        · refine ⟨?_, ?_, ?_⟩
          · simp [relayItems, hne, ih1]
          · simp [relayItems, hne, relayFwd, itemsChunks, clientBytes, upstreamBytes,
              joinB, evClientChunk, evUpstreamChunk, ih2]
            exact ih2
          · simp [relayItems, hne, relayFwd, itemsChunks, clientBytes, upstreamBytes,
              joinB, evClientChunk, evUpstreamChunk, ih3]
            exact ih3

theorem relaySteps_clean (s : List RStep) (h : cleanSched s = true) :
    (relaySteps s).2 = false ∧
      clientBytes (relaySteps s).1 = joinB (schedChunks false s) ∧
      upstreamBytes (relaySteps s).1 = joinB (schedChunks true s) := by
  induction s with
  | nil => exact ⟨rfl, rfl, rfl⟩
  | cons st rest ih =>
    rcases st with _ | items
    · simp [cleanSched] at h
    · simp only [cleanSched, List.all_cons, Bool.and_eq_true] at h
      obtain ⟨hitems, hrest⟩ := h
      obtain ⟨hi1, hi2, hi3⟩ := relayItems_clean items hitems
      obtain ⟨ih1, ih2, ih3⟩ := ih hrest
      refine ⟨?_, ?_, ?_⟩
      · simp [relaySteps, hi1, ih1]
      · simp [relaySteps, hi1, schedChunks, clientBytes_append, joinB_append,
          hi2, ih2]
      · simp [relaySteps, hi1, schedChunks, upstreamBytes_append, joinB_append,
          hi3, ih3]

theorem relay_data_clean (s : List RStep) (h : cleanSched s = true) :
    clientBytes (relay_data s).1 = joinB (schedChunks false s) ∧
      upstreamBytes (relay_data s).1 = joinB (schedChunks true s) := by
  obtain ⟨h1, h2, h3⟩ := relaySteps_clean s h
  simp [relay_data, h1, h2, h3]

theorem leadsWith_headD_split (ch : Nat) (s : Bytes) :
    leadsWith s ((splitOnChar ch s).headD []) = true := by
  induction s with
  | nil => simp [splitOnChar, leadsWith]
  | cons c rest ih =>
    by_cases h : c = ch
    · simp [splitOnChar, h, leadsWith]
    · rcases hs : splitOnChar ch rest with _ | ⟨p, ps⟩
      · simp [splitOnChar, h, hs, leadsWith]
      · simp only [splitOnChar, h, hs, if_neg, ite_false, List.headD_cons,
          leadsWith, Bool.and_eq_true, beq_self_eq_true]
        refine ⟨trivial, ?_⟩
        simpa [hs] using ih

theorem handle_client_tunnel (raw : Bytes) (env : Env) (url : Bytes)
    (h1 : env.recvOk = true) (h2 : (pyDecodeIgnore raw).isEmpty = false)
    (h3 : targetTokOf (pyDecodeIgnore raw) = some url)
    (h4 : routesToTunnel (pyDecodeIgnore raw) = true) :
    handle_client raw env =
      Ev.incActive :: Ev.incTotal :: (withErrFlag (handle_https url env)
        ++ [Ev.clientClose, Ev.decActive]) := by
  simp [handle_client, h1, handleReq, h2, h3, pathEvs, h4]

theorem handle_client_fwd (raw : Bytes) (env : Env) (url : Bytes)
    (h1 : env.recvOk = true) (h2 : (pyDecodeIgnore raw).isEmpty = false)
    (h3 : targetTokOf (pyDecodeIgnore raw) = some url)
    (h4 : routesToTunnel (pyDecodeIgnore raw) = false) :
    handle_client raw env =
      Ev.incActive :: Ev.incTotal ::
        (withErrFlag (handle_http (pyDecodeIgnore raw) url env)
          ++ [Ev.clientClose, Ev.decActive]) := by
  simp [handle_client, h1, handleReq, h2, h3, pathEvs, h4]

/-- C7: a connection whose initial read returns zero bytes is closed
and the handler returns: no response bytes are written, the error
counter is not incremented, and the total-request counter is not
incremented (only the active-counter increment/decrement and the
client close appear in the trace). -/
theorem c7_empty_read (env : Env) (h : env.recvOk = true) :
    handle_client [] env = [Ev.incActive, Ev.clientClose, Ev.decActive] := by
  simp [handle_client, h, handleReq, pyDecodeIgnore, pyDecodeGo]

theorem c7_empty_read_witness :
    handle_client [] env0 = [Ev.incActive, Ev.clientClose, Ev.decActive] :=
  c7_empty_read env0 rfl

/-- C6 (amended): for every initial read whose lossily-decoded text is
non-empty and whose first line lacks a second space-separated token,
the handler increments the error counter by exactly 1 and closes the
connection with no response bytes written.  (As originally stated the
claim fails: a non-empty read consisting only of invalid UTF-8 bytes
decodes to the empty string and is closed silently with no error.) -/
theorem c6_no_target_token (raw : Bytes) (env : Env) (h1 : env.recvOk = true)
    (h2 : (pyDecodeIgnore raw).isEmpty = false)
    (h3 : targetTokOf (pyDecodeIgnore raw) = none) :
    handle_client raw env =
      [Ev.incActive, Ev.incTotal, Ev.incErrors, Ev.clientClose, Ev.decActive] := by
  simp [handle_client, h1, handleReq, h2, h3]

theorem c6_no_target_token_witness :
    handle_client (pyStr "NOTOKEN\r\n\r\n") env0 =
      [Ev.incActive, Ev.incTotal, Ev.incErrors, Ev.clientClose, Ev.decActive] :=
  c6_no_target_token (pyStr "NOTOKEN\r\n\r\n") env0 rfl (by decide) (by decide)

/-- C6 counterexample: the single invalid byte 0xFF is a non-empty
read whose first line (under either the raw or the decoded reading)
has no space-delimited target token, yet the handler counts no error
and closes silently, because `decode('utf-8', errors='ignore')` turns
the read into the empty string and the empty-read branch fires. -/
theorem c6_counterexample :
    handle_client [0xFF] env0 = [Ev.incActive, Ev.clientClose, Ev.decActive] ∧
      countEv isIncErrors (handle_client [0xFF] env0) = 0 ∧
      ([0xFF] : Bytes) ≠ [] ∧
      (splitOnChar 32 ([0xFF] : Bytes))[1]? = none ∧
      targetTokOf (pyDecodeIgnore [0xFF]) = none := by
  refine ⟨by decide, by decide, by decide, by decide, by decide⟩

theorem handler_frame_counts (mid : List Ev) (hmid : mid.all isMidEv = true) :
    countEv isClientClose (Ev.incActive :: mid ++ [Ev.clientClose, Ev.decActive]) = 1 ∧
    countEv isDecActive (Ev.incActive :: mid ++ [Ev.clientClose, Ev.decActive]) = 1 ∧
    countEv isIncActive (Ev.incActive :: mid ++ [Ev.clientClose, Ev.decActive]) = 1 := by
  have hc : countEv isClientClose mid = 0 :=
    countEv_eq_zero_of_all _ isMidEv
      (by intro e; cases e <;> simp [isMidEv, isClientClose]) mid hmid
  have hd : countEv isDecActive mid = 0 :=
    countEv_eq_zero_of_all _ isMidEv
      (by intro e; cases e <;> simp [isMidEv, isDecActive]) mid hmid
  have hi : countEv isIncActive mid = 0 :=
    countEv_eq_zero_of_all _ isMidEv
      (by intro e; cases e <;> simp [isMidEv, isIncActive]) mid hmid
  refine ⟨?_, ?_, ?_⟩ <;>
    simp [countEv, countEv_append, hc, hd, hi, isClientClose, isDecActive,
      isIncActive]

theorem handler_frame_nonneg (mid : List Ev) (hmid : mid.all isMidEv = true)
    (n : Nat) :
    countEv isDecActive ((Ev.incActive :: mid ++ [Ev.clientClose, Ev.decActive]).take n) ≤
      countEv isIncActive ((Ev.incActive :: mid ++ [Ev.clientClose, Ev.decActive]).take n) := by
  obtain ⟨_, hd1, _⟩ := handler_frame_counts mid hmid
  cases n with
  | zero => simp [countEv]
  | succ m =>
    have htot : countEv isDecActive (mid ++ [Ev.clientClose, Ev.decActive]) = 1 := by
      have : countEv isDecActive
          (Ev.incActive :: mid ++ [Ev.clientClose, Ev.decActive]) =
          countEv isDecActive (mid ++ [Ev.clientClose, Ev.decActive]) := by
        simp [countEv, isDecActive]
      omega
    have hle := countEv_take_le isDecActive (mid ++ [Ev.clientClose, Ev.decActive]) m
    have hL : countEv isDecActive
        ((Ev.incActive :: mid ++ [Ev.clientClose, Ev.decActive]).take (m + 1)) =
        countEv isDecActive ((mid ++ [Ev.clientClose, Ev.decActive]).take m) := by
      simp [List.take_succ_cons, countEv, isDecActive]
    have hR : countEv isIncActive
        ((Ev.incActive :: mid ++ [Ev.clientClose, Ev.decActive]).take (m + 1)) =
        1 + countEv isIncActive ((mid ++ [Ev.clientClose, Ev.decActive]).take m) := by
      simp [List.take_succ_cons, countEv, isIncActive]
    omega

/-- C5: on every exit path of `handle_client` — for every raw input
and every environment, i.e. every combination of success and failure
of the fallible operations — the trace has the shape
"increment active, then protocol work containing no counter/close
events of its own, then close the client socket and decrement":
the client close and the decrement each happen exactly once, the
increment happens exactly once and first, so along every prefix the
decrement count never exceeds the increment count (the counter's net
contribution is never negative) — the sequential content of the
claim's counter invariant. -/
theorem c5_cleanup_every_path (raw : Bytes) (env : Env) :
    countEv isClientClose (handle_client raw env) = 1 ∧
    countEv isDecActive (handle_client raw env) = 1 ∧
    countEv isIncActive (handle_client raw env) = 1 ∧
    (∃ mid, handle_client raw env =
      Ev.incActive :: mid ++ [Ev.clientClose, Ev.decActive] ∧
      mid.all isMidEv = true) ∧
    (∀ n, countEv isDecActive ((handle_client raw env).take n) ≤
      countEv isIncActive ((handle_client raw env).take n)) := by
  have hmid : (if env.recvOk then handleReq (pyDecodeIgnore raw) env
      else [Ev.incErrors]).all isMidEv = true := by
    cases h : env.recvOk
    · simp [isMidEv]
    · simp [handleReq_mid]
  obtain ⟨ha, hb, hc⟩ := handler_frame_counts _ hmid
  exact ⟨ha, hb, hc, ⟨_, rfl, hmid⟩, fun n => handler_frame_nonneg _ hmid n⟩

/-- C9 (amended): requests are routed to the HTTPS tunnel path iff
the first line starts with the string `CONNECT` — a prefix test, not
a method-token comparison.  In particular every request whose method
token is exactly `CONNECT` is routed to the tunnel; the converse
fails (see the counterexample: method `CONNECTX` is also tunneled). -/
theorem c9_connect_method_routes_to_tunnel (request : Bytes)
    (h : methodTok (firstLineOf request) = pyStr "CONNECT") :
    routesToTunnel request = true := by
  have hh := leadsWith_headD_split 32 (firstLineOf request)
  rw [methodTok] at h
  rw [routesToTunnel, ← h]
  exact hh

theorem c9_connect_method_routes_to_tunnel_witness :
    routesToTunnel (pyDecodeIgnore (pyStr "CONNECT example.com:443 HTTP/1.1\r\n\r\n")) =
      true :=
  c9_connect_method_routes_to_tunnel _ (by decide)

/-- Input used by the C9 counterexample: the method token is
`CONNECTX`, not `CONNECT`. -/
def rawConnectX : Bytes := pyStr "CONNECTX example.com:443 HTTP/1.1\r\n\r\n"

/-- C9 counterexample: a request whose method token is `CONNECTX`
(not `CONNECT`) is nevertheless routed to the HTTPS tunnel path —
its trace opens the tunnel and sends the 200 response instead of
forwarding the request — because line 88 tests
`first_line.startswith('CONNECT')`. -/
theorem c9_counterexample :
    methodTok (firstLineOf (pyDecodeIgnore rawConnectX)) ≠ pyStr "CONNECT" ∧
      routesToTunnel (pyDecodeIgnore rawConnectX) = true ∧
      handle_client rawConnectX env0 =
        [Ev.incActive, Ev.incTotal,
         Ev.connectAttempt (pyStr "example.com") 443 true,
         Ev.clientSend resp200 true, Ev.clientClose, Ev.decActive] :=
  ⟨by decide, by decide, by decide⟩

/-- C4: for every CONNECT-routed request whose target parses and is
reachable (the upstream connect succeeds) and whose client socket
accepts the response, the handler writes exactly
`HTTP/1.1 200 Connection Established\r\n\r\n` to the client, after
the upstream connect event and before any relay event; the tunneled
relay events follow it in the trace. -/
theorem c4_connect_established (raw url hst : Bytes) (pt : Nat) (env : Env)
    (h1 : env.recvOk = true)
    (h2 : (pyDecodeIgnore raw).isEmpty = false)
    (h3 : targetTokOf (pyDecodeIgnore raw) = some url)
    (h4 : routesToTunnel (pyDecodeIgnore raw) = true)
    (h5 : parseConnectTarget url = some (hst, pt))
    (h6 : env.connectOk = true)
    (h7 : env.estabSendOk = true) :
    handle_client raw env =
      Ev.incActive :: Ev.incTotal :: Ev.connectAttempt hst pt true ::
        Ev.clientSend resp200 true ::
        ((relay_data env.sched).1 ++ [Ev.clientClose, Ev.decActive]) := by
  rw [handle_client_tunnel raw env url h1 h2 h3 h4]
  simp [handle_https, h5, h6, h7, withErrFlag]

/-- Input used by several witnesses: a plain CONNECT request. -/
def rawConnect : Bytes := pyStr "CONNECT example.com:443 HTTP/1.1\r\n\r\n"

theorem c4_connect_established_witness :
    handle_client rawConnect env0 =
      Ev.incActive :: Ev.incTotal ::
        Ev.connectAttempt (pyStr "example.com") 443 true ::
        Ev.clientSend resp200 true ::
        ((relay_data env0.sched).1 ++ [Ev.clientClose, Ev.decActive]) :=
  c4_connect_established rawConnect (pyStr "example.com:443")
    (pyStr "example.com") 443 env0 rfl (by decide) (by decide) (by decide)
    (by decide) rfl rfl

/-- C1 (amended): on an upstream-connect failure (both protocol
paths), the handler attempts to write exactly
`HTTP/1.1 500 Internal Server Error\r\n\r\n` to the client before the
close, but the error counter increments by 1 only when that 500 send
itself fails, and by 0 when it succeeds (the `except` clause of
`handle_client` that counts errors fires only for the exception the
failed send re-raises; a successful 500 send means `handle_https` /
`handle_http` swallow the connect failure themselves).  In both
outcomes the handler still closes the client socket normally. -/
theorem c1_connect_failure_500 :
    (∀ (raw url hst : Bytes) (pt : Nat) (env : Env),
      env.recvOk = true → (pyDecodeIgnore raw).isEmpty = false →
      targetTokOf (pyDecodeIgnore raw) = some url →
      routesToTunnel (pyDecodeIgnore raw) = true →
      parseConnectTarget url = some (hst, pt) → env.connectOk = false →
      handle_client raw env =
        [Ev.incActive, Ev.incTotal, Ev.connectAttempt hst pt false,
          Ev.clientSend resp500 env.errSendOk] ++
        (if env.errSendOk then [] else [Ev.incErrors]) ++
        [Ev.clientClose, Ev.decActive]) ∧
    (∀ (raw url hst : Bytes) (pt : Nat) (env : Env),
      env.recvOk = true → (pyDecodeIgnore raw).isEmpty = false →
      targetTokOf (pyDecodeIgnore raw) = some url →
      routesToTunnel (pyDecodeIgnore raw) = false →
      httpTarget (pyDecodeIgnore raw) url = some (hst, pt) →
      env.connectOk = false →
      handle_client raw env =
        [Ev.incActive, Ev.incTotal, Ev.connectAttempt hst pt false,
          Ev.clientSend resp500 env.errSendOk] ++
        (if env.errSendOk then [] else [Ev.incErrors]) ++
        [Ev.clientClose, Ev.decActive]) := by
  constructor
  · intro raw url hst pt env h1 h2 h3 h4 h5 h6
    rw [handle_client_tunnel raw env url h1 h2 h3 h4]
    cases he : env.errSendOk <;>
      simp [handle_https, h5, h6, he, withErrFlag]
  · intro raw url hst pt env h1 h2 h3 h4 h5 h6
    rw [handle_client_fwd raw env url h1 h2 h3 h4]
    cases he : env.errSendOk <;>
      simp [handle_http, h5, h6, he, withErrFlag]

theorem c1_connect_failure_500_witness :
    (handle_client rawConnect envNoConnect =
      [Ev.incActive, Ev.incTotal,
        Ev.connectAttempt (pyStr "example.com") 443 false,
        Ev.clientSend resp500 envNoConnect.errSendOk] ++
      (if envNoConnect.errSendOk then [] else [Ev.incErrors]) ++
      [Ev.clientClose, Ev.decActive]) ∧
    (handle_client (pyStr "GET http://example.com/ HTTP/1.1\r\n\r\n") envNoConnect =
      [Ev.incActive, Ev.incTotal,
        Ev.connectAttempt (pyStr "example.com") 80 false,
        Ev.clientSend resp500 envNoConnect.errSendOk] ++
      (if envNoConnect.errSendOk then [] else [Ev.incErrors]) ++
      [Ev.clientClose, Ev.decActive]) :=
  ⟨c1_connect_failure_500.1 rawConnect (pyStr "example.com:443")
      (pyStr "example.com") 443 envNoConnect rfl (by decide) (by decide)
      (by decide) (by decide) rfl,
    c1_connect_failure_500.2 (pyStr "GET http://example.com/ HTTP/1.1\r\n\r\n")
      (pyStr "http://example.com/") (pyStr "example.com") 80 envNoConnect rfl
      (by decide) (by decide) (by decide) (by decide) rfl⟩

/-- C1 counterexample: a CONNECT whose upstream connect fails and
whose 500 response is delivered successfully — the 500 is attempted
(and sent) as the claim says, but the error counter increments by 0,
not by exactly 1. -/
theorem c1_counterexample :
    handle_client rawConnect envNoConnect =
      [Ev.incActive, Ev.incTotal,
        Ev.connectAttempt (pyStr "example.com") 443 false,
        Ev.clientSend resp500 true, Ev.clientClose, Ev.decActive] ∧
      countEv isIncErrors (handle_client rawConnect envNoConnect) = 0 :=
  ⟨by decide, by decide⟩

/-- C2 (amended): for an HTTP-forward request whose target is not an
absolute `http://` URI and whose request has no case-insensitive
`Host:` header line, the raised "host not found" failure is caught by
`handle_http`'s own `except` clause, which *does* attempt to write the
500 error response to the client (contrary to the claim's
"no response is attempted"); the error counter increments by 1 only
when that 500 send itself fails, and by 0 when it succeeds.  The
connection is then closed. -/
theorem c2_missing_host (raw url : Bytes) (env : Env)
    (h1 : env.recvOk = true) (h2 : (pyDecodeIgnore raw).isEmpty = false)
    (h3 : targetTokOf (pyDecodeIgnore raw) = some url)
    (h4 : routesToTunnel (pyDecodeIgnore raw) = false)
    (h5 : leadsWith url (pyStr "http://") = false)
    (h6 : hostFromHeaders (pyDecodeIgnore raw) = none) :
    handle_client raw env =
      [Ev.incActive, Ev.incTotal, Ev.clientSend resp500 env.errSendOk] ++
      (if env.errSendOk then [] else [Ev.incErrors]) ++
      [Ev.clientClose, Ev.decActive] := by
  rw [handle_client_fwd raw env url h1 h2 h3 h4]
  cases he : env.errSendOk <;>
    simp [handle_http, httpTarget, h5, h6, he, withErrFlag]

/-- Input used by the C2 witness and counterexample: origin-form
target, no Host header. -/
def rawNoHost : Bytes := pyStr "GET / HTTP/1.1\r\n\r\n"

theorem c2_missing_host_witness :
    handle_client rawNoHost env0 =
      [Ev.incActive, Ev.incTotal, Ev.clientSend resp500 env0.errSendOk] ++
      (if env0.errSendOk then [] else [Ev.incErrors]) ++
      [Ev.clientClose, Ev.decActive] :=
  c2_missing_host rawNoHost (pyStr "/") env0 rfl (by decide) (by decide)
    (by decide) (by decide) (by decide)

/-- C2 counterexample: `GET / HTTP/1.1` with no Host header — the
claim says the connection closes with one error counted and no
response bytes written, but the handler actually delivers the 500
response to the client and counts zero errors. -/
theorem c2_counterexample :
    clientBytes (handle_client rawNoHost env0) = resp500 ∧
      countEv isIncErrors (handle_client rawNoHost env0) = 0 :=
  ⟨by decide, by decide⟩

/-- C3 (amended): on the HTTP forward path the bytes written to the
upstream socket as the forwarded request are the UTF-8 re-encoding of
the lossily-decoded initial read — equal to the received bytes
exactly when the read is well-formed UTF-8 (invalid bytes are
silently dropped by `decode('utf-8', errors='ignore')` at line 79,
so forwarding is *not* verbatim in general); and on any relay
schedule on which the tunnel does not end, the bytes delivered to the
client are exactly the concatenation, in order, of the chunks the
upstream sent (and symmetrically for the client's chunks), with no
truncation within a chunk. -/
theorem c3_forward_bytes :
    (∀ (raw url hst : Bytes) (pt : Nat) (env : Env),
      env.recvOk = true → (pyDecodeIgnore raw).isEmpty = false →
      targetTokOf (pyDecodeIgnore raw) = some url →
      routesToTunnel (pyDecodeIgnore raw) = false →
      httpTarget (pyDecodeIgnore raw) url = some (hst, pt) →
      env.connectOk = true → env.estabSendOk = true →
      handle_client raw env =
        Ev.incActive :: Ev.incTotal :: Ev.connectAttempt hst pt true ::
          Ev.upstreamSend (utf8Encode (pyDecodeIgnore raw)) true ::
          ((relay_data env.sched).1 ++ [Ev.clientClose, Ev.decActive]) ∧
        (validUtf8 raw = true → utf8Encode (pyDecodeIgnore raw) = raw)) ∧
    (∀ sched : List RStep, cleanSched sched = true →
      clientBytes (relay_data sched).1 = joinB (schedChunks false sched) ∧
      upstreamBytes (relay_data sched).1 = joinB (schedChunks true sched)) := by
  constructor
  · intro raw url hst pt env h1 h2 h3 h4 h5 h6 h7
    constructor
    · rw [handle_client_fwd raw env url h1 h2 h3 h4]
      simp [handle_http, h5, h6, h7, withErrFlag]
    · intro hval
      exact utf8_roundtrip raw hval
  · intro sched hclean
    exact relay_data_clean sched hclean

/-- Input used by the C3 witness: a well-formed absolute-URI GET. -/
def rawAbs : Bytes := pyStr "GET http://example.com/ HTTP/1.1\r\n\r\n"

/-- Relay schedule used by the C3 witness: one upstream chunk and one
client chunk, all delivered. -/
def schedW : List RStep :=
  [RStep.selReady [⟨true, ROut.rdata (pyStr "ping") true⟩],
   RStep.selReady [⟨false, ROut.rdata (pyStr "pong") true⟩]]

theorem c3_forward_bytes_witness :
    (handle_client rawAbs env0 =
      Ev.incActive :: Ev.incTotal ::
        Ev.connectAttempt (pyStr "example.com") 80 true ::
        Ev.upstreamSend (utf8Encode (pyDecodeIgnore rawAbs)) true ::
        ((relay_data env0.sched).1 ++ [Ev.clientClose, Ev.decActive]) ∧
      (validUtf8 rawAbs = true → utf8Encode (pyDecodeIgnore rawAbs) = rawAbs)) ∧
    (clientBytes (relay_data schedW).1 = joinB (schedChunks false schedW) ∧
      upstreamBytes (relay_data schedW).1 = joinB (schedChunks true schedW)) :=
  ⟨c3_forward_bytes.1 rawAbs (pyStr "http://example.com/") (pyStr "example.com")
      80 env0 rfl (by decide) (by decide) (by decide) (by decide) rfl rfl,
    c3_forward_bytes.2 schedW (by decide)⟩

/-- Input used by the C3 counterexample: a GET request with one
invalid byte 0xFF buffered after the headers. -/
def rawBin : Bytes := pyStr "GET http://example.com/ HTTP/1.1\r\n\r\n" ++ [0xFF]

/-- C3 counterexample: the initial read carries the invalid byte 0xFF
after the headers; the bytes the upstream receives are *not* the
bytes the client sent — the 0xFF has been dropped by the
decode/encode round trip. -/
theorem c3_counterexample :
    upstreamBytes (handle_client rawBin env0) ≠ rawBin ∧
      upstreamBytes (handle_client rawBin env0) =
        pyStr "GET http://example.com/ HTTP/1.1\r\n\r\n" :=
  ⟨by decide, by decide⟩

/-- C8: in `relay_data`, (1) whenever the relay terminates, its trace
ends with the close of the upstream socket; (2) the relay never
closes the client socket, and it closes the upstream socket exactly
once on termination and not at all while still running; (3) a
zero-length read from either socket (any `fromClient` value) ends the
entire relay immediately: the remaining ready items of that iteration
and all later iterations contribute nothing, and the upstream socket
is closed. -/
theorem c8_relay_termination :
    (∀ sched : List RStep, (relay_data sched).2 = true →
      ∃ tr, (relay_data sched).1 = tr ++ [Ev.upstreamClose]) ∧
    (∀ sched : List RStep,
      countEv isClientClose (relay_data sched).1 = 0 ∧
      countEv isUpstreamClose (relay_data sched).1 =
        (if (relay_data sched).2 then 1 else 0)) ∧
    (∀ (xs : List RItem) (tr : List Ev), relayItems xs = (tr, false) →
      ∀ (b sok : Bool) (ys : List RItem) (rest : List RStep),
        relay_data (RStep.selReady (xs ++ ⟨b, ROut.rdata [] sok⟩ :: ys) :: rest) =
          (tr ++ [Ev.upstreamClose], true)) :=
  ⟨relay_data_closes_upstream,
    fun sched => ⟨relay_data_no_clientClose sched, relay_data_close_iff_done sched⟩,
    fun xs tr hx b sok ys rest => relay_data_zero_read xs tr hx b sok ys rest⟩

theorem c8_relay_termination_witness :
    (∃ tr, (relay_data [RStep.selErr]).1 = tr ++ [Ev.upstreamClose]) ∧
      relay_data
        [RStep.selReady [⟨false, ROut.rdata (pyStr "A") true⟩,
          ⟨true, ROut.rdata [] true⟩,
          ⟨false, ROut.rdata (pyStr "NEVER") true⟩],
         RStep.selReady [⟨true, ROut.rdata (pyStr "LATER") true⟩]] =
        ([Ev.clientSend (pyStr "A") true, Ev.upstreamClose], true) :=
  ⟨c8_relay_termination.1 [RStep.selErr] (by decide),
    c8_relay_termination.2.2 [⟨false, ROut.rdata (pyStr "A") true⟩]
      [Ev.clientSend (pyStr "A") true] (by decide) true true
      [⟨false, ROut.rdata (pyStr "NEVER") true⟩]
      [RStep.selReady [⟨true, ROut.rdata (pyStr "LATER") true⟩]]⟩

/-- C10: for every CONNECT-routed request that reaches the relay
(successful parse, connect and 200 send), the bytes delivered to the
upstream socket are exactly the bytes the relay pumps out of its
schedule — the residue of the initial read (header remainder or early
tunneled bytes buffered with the request line) is never written to
the upstream socket, whatever it contains. -/
theorem c10_tunnel_discards_buffered (raw url hst : Bytes) (pt : Nat) (env : Env)
    (h1 : env.recvOk = true)
    (h2 : (pyDecodeIgnore raw).isEmpty = false)
    (h3 : targetTokOf (pyDecodeIgnore raw) = some url)
    (h4 : routesToTunnel (pyDecodeIgnore raw) = true)
    (h5 : parseConnectTarget url = some (hst, pt))
    (h6 : env.connectOk = true)
    (h7 : env.estabSendOk = true) :
    upstreamBytes (handle_client raw env) =
      upstreamBytes (relay_data env.sched).1 := by
  rw [handle_client_tunnel raw env url h1 h2 h3 h4]
  simp [handle_https, h5, h6, h7, withErrFlag]
  simp [upstreamBytes, evUpstreamChunk, List.filterMap_append, joinB_append,
    joinB, List.filterMap_cons]

/-- Input used by the C10 witness: a CONNECT request with extra
buffered bytes (a header and early tunneled bytes) after the first
line. -/
def rawConnectExtra : Bytes :=
  pyStr "CONNECT example.com:443 HTTP/1.1\r\nHost: example.com\r\n\r\nEARLY"

theorem c10_tunnel_discards_buffered_witness :
    upstreamBytes (handle_client rawConnectExtra env0) =
      upstreamBytes (relay_data env0.sched).1 :=
  c10_tunnel_discards_buffered rawConnectExtra (pyStr "example.com:443")
    (pyStr "example.com") 443 env0 rfl (by decide) (by decide) (by decide)
    (by decide) rfl rfl
